import Mathlib

/-!
Verification development for the wire/domain conversion layer of an Ethereum
IBC light client (src/crates/ibc/src/types.rs).

Byte strings are modelled as lists of naturals; machine integers (u64 slots,
block numbers, revision numbers) are naturals, since the conversions never
perform arithmetic on them.  Fallible Rust code returning `Result<_, Error>`
is embedded as `Except`; code that can additionally panic (via
`H256::from_slice` on a slice whose length is not 32, or via `.expect(..)`)
is embedded in `Except Fault` where `Fault.panicked` marks a panic and
`Fault.failed e` a typed error returned to the caller.
-/

set_option maxRecDepth 10000

abbrev Bytes := List Nat

/-- Error type of the conversion layer.  Modelled from the spec: the error
kinds of the crate error module (not under src/): MissingField,
UnexpectedHeightRevisionNumber, bad BLS public key / signature bytes,
DeserializeSyncCommitteeBitsError carrying the expected committee size and the
rejected bytes, a bad RLP account proof, an invalid height, and the committee
well-formedness errors propagated by the trusted-committee validation. -/
inductive Error where
| proto_missing (field : String)
| unexpectedHeightRevisionNumber (expected : Nat) (got : Nat)
| deserializeSyncCommitteeBitsError (sync_committee_size : Nat) (sync_committee_bits : Bytes)
| badPublicKey (bytes : Bytes)
| badSignature (bytes : Bytes)
| badRlp
| zeroHeight
| emptySyncCommittee
| badAggregatePublicKey
deriving DecidableEq, Repr

/-- Outcome of a conversion that may also panic: `panicked` models an
uncatchable Rust panic, `failed e` a typed error returned to the caller. -/
inductive Fault where
| panicked
| failed (e : Error)
deriving DecidableEq, Repr

/-- Lifts a conversion step that only returns typed errors (never panics)
into the panic-aware result monad. -/
def liftE : Except Error α → Except Fault α
| Except.ok a => Except.ok a
| Except.error e => Except.error (Fault.failed e)

/-- A 32-byte hash value (`ethereum_consensus::types::H256`). -/
structure H256 where
data : Bytes
deriving DecidableEq, Repr

/-- H256::from_slice copies a byte slice into a hash value and panics when the
slice length differs from 32 (fixed-hash convention of the consensus crate). -/
def H256.from_slice (bz : Bytes) : Except Fault H256 :=
if bz.length = 32 then Except.ok ⟨bz⟩ else Except.error Fault.panicked

/-- H256::as_bytes, the byte view of a hash value. -/
def H256.as_bytes (h : H256) : Bytes := h.data

/-- A BLS public key (`ethereum_consensus::bls::PublicKey`), 48 bytes. -/
structure PublicKey where
data : Bytes
deriving DecidableEq, Repr

/-- PublicKey::try_from bytes: fails with a key-decode error unless the input
is exactly 48 bytes (fixed BLS public-key width). -/
def PublicKey.tryFrom (bz : Bytes) : Except Error PublicKey :=
if bz.length = 48 then Except.ok ⟨bz⟩ else Except.error (Error.badPublicKey bz)

/-- PublicKey::default, 48 zero bytes. -/
def defaultPublicKey : PublicKey := ⟨List.replicate 48 0⟩

/-- A BLS signature (`ethereum_consensus::bls::Signature`), 96 bytes. -/
structure Signature where
data : Bytes
deriving DecidableEq, Repr

/-- Signature::try_from bytes: fails with a signature-decode error unless the
input is exactly 96 bytes (fixed BLS signature width). -/
def Signature.tryFrom (bz : Bytes) : Except Error Signature :=
if bz.length = 96 then Except.ok ⟨bz⟩ else Except.error (Error.badSignature bz)

/-- The SSZ fixed-size vector constructor `Vector::<T, N>::from_iter` used at
src/crates/ibc/src/types.rs lines 143 and 385.  Modelled from the ssz library
interface: `FromIterator` is infallible — when the supplied element count is
exactly N the elements are used as given, and any other count yields the
default vector (N default elements) instead of an error. -/
def Vector.fromIter (N : Nat) (d : α) (xs : List α) : List α :=
if xs.length = N then xs else List.replicate N d

/-- SSZ deserialization of a `Bitvector<N>` from its byte encoding.  The
bit-vector is represented by its canonical byte encoding; deserialization
fails when N = 0 (illegal SSZ type), when the byte count differs from
ceil(N/8), or when a padding bit above bit N of the last byte is set. -/
def Bitvector.deserialize (N : Nat) (bz : Bytes) : Except Unit Bytes :=
if N = 0 then Except.error ()
else if bz.length ≠ (N + 7) / 8 then Except.error ()
else if N % 8 ≠ 0 ∧ ¬ ((bz.getLast?).getD 0) < 2 ^ (N % 8) then Except.error ()
else Except.ok bz

/-- SSZ serialization of a `Bitvector<N>` (`ssz_rs::serialize`): returns the
canonical byte encoding; fails exactly when N = 0, the illegal SSZ type. -/
def Bitvector.serialize (N : Nat) (bits : Bytes) : Except Unit Bytes :=
if N = 0 then Except.error () else Except.ok bits

/-- An IBC revision height (`ibc::Height`). -/
structure Height where
revision_number : Nat
revision_height : Nat
deriving DecidableEq, Repr

/-- Modelled from the spec: the height constructor consumed from the IBC
collaborator crate can fail; it rejects a zero revision height. -/
def Height.new (rn : Nat) (rh : Nat) : Except Error Height :=
if rh = 0 then Except.error Error.zeroHeight else Except.ok ⟨rn, rh⟩

/-- Modelled from the spec: `ETHEREUM_CLIENT_REVISION_NUMBER`, the fixed
Ethereum-client revision tag defined in the client-state module of this
repository (not under src/).  The claims only compare heights against it, so
its concrete value is irrelevant to every theorem below. -/
def ETHEREUM_CLIENT_REVISION_NUMBER : Nat := 0

/-- Wire form of a beacon block header. -/
structure ProtoBeaconBlockHeader where
slot : Nat
proposer_index : Nat
parent_root : Bytes
state_root : Bytes
body_root : Bytes
deriving DecidableEq, Repr

/-- Wire form of a sync committee. -/
structure ProtoSyncCommittee where
pubkeys : List Bytes
aggregate_pubkey : Bytes
deriving DecidableEq, Repr

/-- Wire form of a sync aggregate. -/
structure ProtoSyncAggregate where
sync_committee_bits : Bytes
sync_committee_signature : Bytes
deriving DecidableEq, Repr

/-- Wire form of an IBC height. -/
structure ProtoHeight where
revision_number : Nat
revision_height : Nat
deriving DecidableEq, Repr

/-- Wire form of a trusted sync committee. -/
structure ProtoTrustedSyncCommittee where
trusted_height : Option ProtoHeight
sync_committee : Option ProtoSyncCommittee
is_next : Bool
deriving DecidableEq, Repr

/-- Wire form of a consensus update. -/
structure ProtoConsensusUpdate where
attested_header : Option ProtoBeaconBlockHeader
next_sync_committee : Option ProtoSyncCommittee
next_sync_committee_branch : List Bytes
finalized_header : Option ProtoBeaconBlockHeader
finalized_header_branch : List Bytes
finalized_execution_root : Bytes
finalized_execution_branch : List Bytes
sync_aggregate : Option ProtoSyncAggregate
signature_slot : Nat
deriving DecidableEq, Repr

/-- Wire form of an execution update. -/
structure ProtoExecutionUpdate where
state_root : Bytes
state_root_branch : List Bytes
block_number : Nat
block_number_branch : List Bytes
deriving DecidableEq, Repr

/-- Wire form of an account update. -/
structure ProtoAccountUpdate where
account_proof : Bytes
account_storage_root : Bytes
deriving DecidableEq, Repr

/-- Domain beacon block header. -/
structure BeaconBlockHeader where
slot : Nat
proposer_index : Nat
parent_root : H256
state_root : H256
body_root : H256
deriving DecidableEq, Repr

/-- Domain sync committee: the key list always holds exactly the committee
size many keys by construction. -/
structure SyncCommittee where
pubkeys : List PublicKey
aggregate_pubkey : PublicKey
deriving DecidableEq, Repr

/-- Domain sync aggregate; the bit-vector is carried as its canonical byte
encoding. -/
structure SyncAggregate where
sync_committee_bits : Bytes
sync_committee_signature : Signature
deriving DecidableEq, Repr

/-- Domain consensus update record (ConsensusUpdateInfo). -/
structure ConsensusUpdateInfo where
attested_header : BeaconBlockHeader
next_sync_committee : Option (SyncCommittee × List H256)
finalized_header : BeaconBlockHeader × List H256
sync_aggregate : SyncAggregate
signature_slot : Nat
finalized_execution_root : H256
finalized_execution_branch : List H256
deriving DecidableEq, Repr

/-- Domain execution update record (ExecutionUpdateInfo). -/
structure ExecutionUpdateInfo where
state_root : H256
state_root_branch : List H256
block_number : Nat
block_number_branch : List H256
deriving DecidableEq, Repr

/-- Domain trusted sync committee record. -/
structure TrustedSyncCommittee where
height : Height
sync_committee : SyncCommittee
is_next : Bool
deriving DecidableEq, Repr

/-- Domain account update record. -/
structure AccountUpdateInfo where
account_proof : List Bytes
account_storage_root : H256
deriving DecidableEq, Repr

/-- Left-to-right fallible map, the embedding of iterator maps collected into
a result: the first failing element aborts with its error. -/
def mapME (f : α → Except ε β) : List α → Except ε (List β)
| [] => Except.ok []
| a :: as => do
  let b ← f a
  let bs ← mapME f as
  Except.ok (b :: bs)

/-- Branch codec (src/crates/ibc/src/types.rs line 421): maps each wire byte
string to an H256 via `H256::from_slice`; a wrong-length element panics. -/
def decode_branch (bz : List Bytes) : Except Fault (List H256) :=
mapME H256.from_slice bz

/-- Inverse branch encoding used throughout the encode paths: each hash is
emitted as its 32 raw bytes. -/
def encode_branch (hs : List H256) : List Bytes :=
hs.map H256.as_bytes

/-- Header decode (src/crates/ibc/src/types.rs lines 224 to 234): four field
copies plus three `H256::from_slice` calls, in source order. -/
def convert_proto_to_header (header : ProtoBeaconBlockHeader) :
    Except Fault BeaconBlockHeader := do
let parent_root ← H256.from_slice header.parent_root
let state_root ← H256.from_slice header.state_root
let body_root ← H256.from_slice header.body_root
Except.ok { slot := header.slot, proposer_index := header.proposer_index,
            parent_root, state_root, body_root }

/-- Header encode (src/crates/ibc/src/types.rs lines 236 to 244). -/
def convert_header_to_proto (header : BeaconBlockHeader) : ProtoBeaconBlockHeader :=
{ slot := header.slot, proposer_index := header.proposer_index,
  parent_root := header.parent_root.as_bytes,
  state_root := header.state_root.as_bytes,
  body_root := header.body_root.as_bytes }

/-- Execution update decode (src/crates/ibc/src/types.rs lines 246 to 263):
returns a plain record in Rust; the only possible fault is a panic from a
wrong-length hash byte string. -/
def convert_proto_to_execution_update (execution_update : ProtoExecutionUpdate) :
    Except Fault ExecutionUpdateInfo := do
let state_root ← H256.from_slice execution_update.state_root
let state_root_branch ← mapME H256.from_slice execution_update.state_root_branch
let block_number_branch ← mapME H256.from_slice execution_update.block_number_branch
Except.ok { state_root, state_root_branch,
            block_number := execution_update.block_number, block_number_branch }

/-- Execution update encode (src/crates/ibc/src/types.rs lines 265 to 282). -/
def convert_execution_update_to_proto (execution_update : ExecutionUpdateInfo) :
    ProtoExecutionUpdate :=
{ state_root := execution_update.state_root.as_bytes,
  state_root_branch := encode_branch execution_update.state_root_branch,
  block_number := execution_update.block_number,
  block_number_branch := encode_branch execution_update.block_number_branch }

/-- Sync aggregate encode (src/crates/ibc/src/types.rs lines 284 to 294): the
bit-vector serialization failure is unwrapped with `.expect(..)`, i.e. a
panic; it can only fire when the committee size is 0. -/
def convert_sync_aggregate_to_proto (N : Nat) (sync_aggregate : SyncAggregate) :
    Except Fault ProtoSyncAggregate :=
match Bitvector.serialize N sync_aggregate.sync_committee_bits with
| Except.error _ => Except.error Fault.panicked
| Except.ok sync_committee_bits =>
  Except.ok { sync_committee_bits,
              sync_committee_signature := sync_aggregate.sync_committee_signature.data }

/-- Sync aggregate decode (src/crates/ibc/src/types.rs lines 296 to 310): the
bit-vector must deserialize to exactly N bits, otherwise the typed error
carries the expected size and the rejected bytes; then the signature bytes are
decoded. -/
def convert_proto_sync_aggregate (N : Nat) (sync_aggregate : ProtoSyncAggregate) :
    Except Error SyncAggregate := do
let sync_committee_bits ←
  match Bitvector.deserialize N sync_aggregate.sync_committee_bits with
  | Except.error _ =>
    Except.error (Error.deserializeSyncCommitteeBitsError N
      sync_aggregate.sync_committee_bits)
  | Except.ok bits => Except.ok bits
let sync_committee_signature ← Signature.tryFrom sync_aggregate.sync_committee_signature
Except.ok { sync_committee_bits, sync_committee_signature }

/-- Mandatory wire header access: `x.ok_or(Error::proto_missing(field))?`
followed by the header decode, as on the attested and finalized header paths
of the consensus update decode. -/
def require_header (field : String) (o : Option ProtoBeaconBlockHeader) :
    Except Fault BeaconBlockHeader :=
match o with
| none => Except.error (Fault.failed (Error.proto_missing field))
| some h => convert_proto_to_header h

/-- Mandatory sync aggregate access of the consensus update decode:
`x.ok_or(Error::proto_missing("sync_aggregate"))?` followed by the sync
aggregate decode. -/
def require_sync_aggregate (N : Nat) (o : Option ProtoSyncAggregate) :
    Except Fault SyncAggregate :=
match o with
| none => Except.error (Fault.failed (Error.proto_missing ("sync_aggregate")))
| some sa => liftE (convert_proto_sync_aggregate N sa)

/-- The `next_sync_committee` field computation of the consensus update decode
(src/crates/ibc/src/types.rs lines 372 to 404): the collapsing condition
(committee absent, or empty pubkey list, or empty branch list) yields `none`;
otherwise each pubkey is decoded left to right, the keys are packed by the
infallible fixed-size vector constructor, the aggregate key is decoded, and
the branch is decoded. -/
def decode_next_sync_committee (N : Nat) (committee : Option ProtoSyncCommittee)
    (branch : List Bytes) : Except Fault (Option (SyncCommittee × List H256)) :=
match committee with
| none => Except.ok none
| some c =>
  if c.pubkeys.isEmpty then Except.ok none
  else if branch.isEmpty then Except.ok none
  else do
    let keys ← liftE (mapME PublicKey.tryFrom c.pubkeys)
    let aggregate_pubkey ← liftE (PublicKey.tryFrom c.aggregate_pubkey)
    let decoded_branch ← decode_branch branch
    Except.ok (some ({ pubkeys := Vector.fromIter N defaultPublicKey keys,
                       aggregate_pubkey }, decoded_branch))

/-- Consensus update decode (src/crates/ibc/src/types.rs lines 349 to 419),
with the steps in the evaluation order of the Rust source: attested header,
finalized header, finalized execution branch, next sync committee, finalized
header branch, sync aggregate, finalized execution root. -/
def convert_proto_to_consensus_update (N : Nat) (m : ProtoConsensusUpdate) :
    Except Fault ConsensusUpdateInfo := do
let attested_header ← require_header ("attested_header") m.attested_header
let finalized_header ← require_header ("finalized_header") m.finalized_header
let finalized_execution_branch ← mapME H256.from_slice m.finalized_execution_branch
let next_sync_committee ←
  decode_next_sync_committee N m.next_sync_committee m.next_sync_committee_branch
let finalized_header_branch ← decode_branch m.finalized_header_branch
let sync_aggregate ← require_sync_aggregate N m.sync_aggregate
let finalized_execution_root ← H256.from_slice m.finalized_execution_root
Except.ok { attested_header, next_sync_committee,
            finalized_header := (finalized_header, finalized_header_branch),
            sync_aggregate, signature_slot := m.signature_slot,
            finalized_execution_root, finalized_execution_branch }

/-- The wire committee emitted by the consensus update encode: the domain
optional pair is mapped verbatim, each key as its raw 48 bytes. -/
def encode_nsc_committee (nsc : Option (SyncCommittee × List H256)) :
    Option ProtoSyncCommittee :=
nsc.map (fun c => { pubkeys := c.1.pubkeys.map PublicKey.data,
                    aggregate_pubkey := c.1.aggregate_pubkey.data })

/-- The wire branch list emitted by the consensus update encode: an absent
domain pair emits the empty list (`map_or(Vec::new(), ..)`). -/
def encode_nsc_branch (nsc : Option (SyncCommittee × List H256)) : List Bytes :=
match nsc with
| none => []
| some c => encode_branch c.2

/-- Consensus update encode (src/crates/ibc/src/types.rs lines 312 to 347):
the optional committee-and-branch pair is emitted verbatim when the domain
field is `some` (an absent field emits no committee and an empty branch list);
the sync aggregate encoding is the only fault source (panic when N = 0). -/
def convert_consensus_update_to_proto (N : Nat) (consensus_update : ConsensusUpdateInfo) :
    Except Fault ProtoConsensusUpdate := do
let sync_aggregate ← convert_sync_aggregate_to_proto N consensus_update.sync_aggregate
Except.ok
  { attested_header := some (convert_header_to_proto consensus_update.attested_header),
    next_sync_committee := encode_nsc_committee consensus_update.next_sync_committee,
    next_sync_committee_branch := encode_nsc_branch consensus_update.next_sync_committee,
    finalized_header := some (convert_header_to_proto consensus_update.finalized_header.1),
    finalized_header_branch := encode_branch consensus_update.finalized_header.2,
    finalized_execution_root := consensus_update.finalized_execution_root.as_bytes,
    finalized_execution_branch := encode_branch consensus_update.finalized_execution_branch,
    sync_aggregate := some sync_aggregate,
    signature_slot := consensus_update.signature_slot }

/-- Modelled from the spec: the committee well-formedness check of the
consensus collaborator crate (`SyncCommittee::validate`): a non-empty key list
and a valid aggregate key. -/
def SyncCommittee.validate (sc : SyncCommittee) : Except Error Unit :=
if sc.pubkeys.isEmpty then Except.error Error.emptySyncCommittee
else if sc.aggregate_pubkey.data.length ≠ 48 then Except.error Error.badAggregatePublicKey
else Except.ok ()

/-- Trusted sync committee validation (src/crates/ibc/src/types.rs lines 114
to 125): the height revision tag is checked first and short-circuits; then the
embedded committee validates itself.  The record is never mutated (the
function is pure in this embedding, as in the Rust source, which takes the
record by shared reference). -/
def TrustedSyncCommittee.validate (t : TrustedSyncCommittee) : Except Error Unit :=
if t.height.revision_number ≠ ETHEREUM_CLIENT_REVISION_NUMBER then
  Except.error (Error.unexpectedHeightRevisionNumber ETHEREUM_CLIENT_REVISION_NUMBER
    t.height.revision_number)
else do
  let _ ← t.sync_committee.validate
  Except.ok ()

/-- Trusted sync committee decode (src/crates/ibc/src/types.rs lines 127 to
164): trusted height presence, fallible height construction, committee
presence, per-key decode, infallible vector packing, aggregate key decode.  No
step can panic, so the result is typed errors only. -/
def require_field (field : String) (o : Option α) : Except Error α :=
match o with
| none => Except.error (Error.proto_missing field)
| some a => Except.ok a

def TrustedSyncCommittee.try_from (N : Nat) (v : ProtoTrustedSyncCommittee) :
    Except Error TrustedSyncCommittee := do
let th ← require_field ("trusted_height") v.trusted_height
let height ← Height.new th.revision_number th.revision_height
let sc ← require_field ("sync_committee") v.sync_committee
let keys ← mapME PublicKey.tryFrom sc.pubkeys
let aggregate_pubkey ← PublicKey.tryFrom sc.aggregate_pubkey
Except.ok { height,
            sync_committee := { pubkeys := Vector.fromIter N defaultPublicKey keys,
                                aggregate_pubkey },
            is_next := v.is_next }

/-- Big-endian interpretation of a byte string, used by the RLP long-form
length headers. -/
def beNat (bz : Bytes) : Nat := bz.foldl (fun a b => a * 256 + b) 0

/-- Length in bytes of the first RLP item (header included) of a byte string,
or `none` when the string does not start with a complete RLP item. -/
def rlp_item_length : Bytes → Option Nat
| [] => none
| b :: rest =>
  if b < 128 then some 1
  else if b < 184 then
    let l := b - 128
    if rest.length < l then none else some (1 + l)
  else if b < 192 then
    let ll := b - 183
    if rest.length < ll then none
    else
      let l := beNat (rest.take ll)
      if rest.length < ll + l then none else some (1 + ll + l)
  else if b < 248 then
    let l := b - 192
    if rest.length < l then none else some (1 + l)
  else
    let ll := b - 247
    if rest.length < ll then none
    else
      let l := beNat (rest.take ll)
      if rest.length < ll + l then none else some (1 + ll + l)

/-- Splits an RLP list payload into its items, each returned verbatim with its
header; the fuel argument bounds the recursion by the payload length. -/
def rlp_split (fuel : Nat) (bz : Bytes) : Option (List Bytes) :=
match fuel with
| 0 => if bz.isEmpty then some [] else none
| fuel + 1 =>
  if bz.isEmpty then some []
  else
    match rlp_item_length bz with
    | none => none
    | some l =>
      if l = 0 then none
      else
        match rlp_split fuel (bz.drop l) with
        | none => none
        | some rest => some (bz.take l :: rest)

/-- Modelled from the spec: `decode_eip1184_rlp_proof` (defined in the
commitment module of this repository, not under src/) parses a single
RLP-encoded list and returns each element verbatim, failing with a typed
decode error when the bytes are not a well-formed RLP list. -/
def decode_eip1184_rlp_proof (proof : Bytes) : Except Error (List Bytes) :=
match proof with
| [] => Except.error Error.badRlp
| b :: rest =>
  if b < 192 then Except.error Error.badRlp
  else
    let payload :=
      if b < 248 then
        if rest.length = b - 192 then some rest else none
      else
        let ll := b - 247
        if rest.length ≥ ll ∧ rest.length = ll + beNat (rest.take ll) then
          some (rest.drop ll)
        else none
    match payload with
    | none => Except.error Error.badRlp
    | some pl =>
      match rlp_split pl.length pl with
      | none => Except.error Error.badRlp
      | some items => Except.ok items

/-- Account update decode (src/crates/ibc/src/types.rs lines 204 to 212): the
proof bytes are parsed by the RLP account-proof codec (typed errors only), and
the storage root is copied by `H256::from_slice` (panics on a wrong-length
byte string). -/
def AccountUpdateInfo.try_from (v : ProtoAccountUpdate) :
    Except Fault AccountUpdateInfo := do
let account_proof ← liftE (decode_eip1184_rlp_proof v.account_proof)
let account_storage_root ← H256.from_slice v.account_storage_root
Except.ok { account_proof, account_storage_root }

/-- Trusted sync committee decode lifted into the panic-aware monad, for
stating the cross-decoder no-panic property uniformly. -/
def TrustedSyncCommittee.try_from_f (N : Nat) (v : ProtoTrustedSyncCommittee) :
    Except Fault TrustedSyncCommittee :=
liftE (TrustedSyncCommittee.try_from N v)

/-- The three-way presence predicate of the decode path: the wire committee is
present, its pubkey list is non-empty, and the branch list is non-empty. -/
def nsc_present (committee : Option ProtoSyncCommittee) (branch : List Bytes) : Bool :=
match committee with
| none => false
| some c => !c.pubkeys.isEmpty && !branch.isEmpty

/-- All hash-width byte strings of a wire beacon block header are 32 bytes. -/
def header_hashes_ok (h : ProtoBeaconBlockHeader) : Prop :=
h.parent_root.length = 32 ∧ h.state_root.length = 32 ∧ h.body_root.length = 32

/-- All byte strings in hash position of a wire consensus update are 32 bytes. -/
def consensus_hashes_ok (m : ProtoConsensusUpdate) : Prop :=
(∀ h, m.attested_header = some h → header_hashes_ok h) ∧
(∀ h, m.finalized_header = some h → header_hashes_ok h) ∧
(∀ b ∈ m.next_sync_committee_branch, b.length = 32) ∧
(∀ b ∈ m.finalized_header_branch, b.length = 32) ∧
(∀ b ∈ m.finalized_execution_branch, b.length = 32) ∧
m.finalized_execution_root.length = 32

/-- All byte strings in hash position of a wire execution update are 32 bytes. -/
def execution_hashes_ok (m : ProtoExecutionUpdate) : Prop :=
m.state_root.length = 32 ∧
(∀ b ∈ m.state_root_branch, b.length = 32) ∧
(∀ b ∈ m.block_number_branch, b.length = 32)

/-- 32 zero bytes. -/
def z32 : Bytes := List.replicate 32 0

/-- 48 zero bytes, a syntactically valid BLS public key. -/
def z48 : Bytes := List.replicate 48 0

/-- 96 zero bytes, a syntactically valid BLS signature. -/
def z96 : Bytes := List.replicate 96 0

/-- A wire beacon block header at slot 100 with zero roots. -/
def ph100 : ProtoBeaconBlockHeader :=
{ slot := 100, proposer_index := 0, parent_root := z32, state_root := z32, body_root := z32 }

/-- A wire beacon block header at slot 99 with zero roots. -/
def ph99 : ProtoBeaconBlockHeader :=
{ slot := 99, proposer_index := 0, parent_root := z32, state_root := z32, body_root := z32 }

/-- A wire sync aggregate whose bitmap bytes encode one byte of zeros and a
zero signature; valid for every committee size from 1 to 8. -/
def psa0 : ProtoSyncAggregate :=
{ sync_committee_bits := [0], sync_committee_signature := z96 }

/-- A well-formed wire consensus update for committee size 1 with an absent
next sync committee. -/
def m0 : ProtoConsensusUpdate :=
{ attested_header := some ph100, next_sync_committee := none,
  next_sync_committee_branch := [], finalized_header := some ph99,
  finalized_header_branch := [], finalized_execution_root := z32,
  finalized_execution_branch := [], sync_aggregate := some psa0,
  signature_slot := 100 }

/-- The domain record m0 decodes to. -/
def R0 : ConsensusUpdateInfo :=
{ attested_header := { slot := 100, proposer_index := 0, parent_root := ⟨z32⟩,
                       state_root := ⟨z32⟩, body_root := ⟨z32⟩ },
  next_sync_committee := none,
  finalized_header := ({ slot := 99, proposer_index := 0, parent_root := ⟨z32⟩,
                         state_root := ⟨z32⟩, body_root := ⟨z32⟩ }, []),
  sync_aggregate := { sync_committee_bits := [0], sync_committee_signature := ⟨z96⟩ },
  signature_slot := 100, finalized_execution_root := ⟨z32⟩,
  finalized_execution_branch := [] }

/-- A wire consensus update for committee size 2 whose present committee
carries a single valid 48-byte key: the key count differs from the committee
size yet every key decodes. -/
def m1 : ProtoConsensusUpdate :=
{ attested_header := some ph100,
  next_sync_committee := some { pubkeys := [z48], aggregate_pubkey := z48 },
  next_sync_committee_branch := [z32], finalized_header := some ph99,
  finalized_header_branch := [], finalized_execution_root := z32,
  finalized_execution_branch := [], sync_aggregate := some psa0,
  signature_slot := 0 }

/-- A wire consensus update whose attested header carries a 31-byte parent
root: every field is present, but one hash byte string is malformed. -/
def m2 : ProtoConsensusUpdate :=
{ attested_header := some { slot := 0, proposer_index := 0,
                            parent_root := List.replicate 31 0,
                            state_root := z32, body_root := z32 },
  next_sync_committee := none, next_sync_committee_branch := [],
  finalized_header := some ph99, finalized_header_branch := [],
  finalized_execution_root := z32, finalized_execution_branch := [],
  sync_aggregate := some psa0, signature_slot := 0 }

/-- m0 with the attested header removed. -/
def mA : ProtoConsensusUpdate :=
{ m0 with attested_header := none }

/-- m0 with the finalized header removed. -/
def mB : ProtoConsensusUpdate :=
{ m0 with finalized_header := none }

/-- m0 with the sync aggregate removed. -/
def mC : ProtoConsensusUpdate :=
{ m0 with sync_aggregate := none }

/-- A wire sync aggregate whose bitmap bytes are empty, deserializable to no
committee size. -/
def psaBad : ProtoSyncAggregate :=
{ sync_committee_bits := [], sync_committee_signature := z96 }

/-- A syntactically valid domain sync committee with one zero key. -/
def sc0 : SyncCommittee :=
{ pubkeys := [defaultPublicKey], aggregate_pubkey := defaultPublicKey }

/-- A trusted committee whose height revision number is 1 (not the Ethereum
client tag) and whose committee is well formed. -/
def t1 : TrustedSyncCommittee :=
{ height := { revision_number := 1, revision_height := 5 },
  sync_committee := sc0, is_next := false }

/-- A trusted committee carrying the expected revision number and an empty,
hence invalid, committee. -/
def t0 : TrustedSyncCommittee :=
{ height := { revision_number := ETHEREUM_CLIENT_REVISION_NUMBER, revision_height := 5 },
  sync_committee := { pubkeys := [], aggregate_pubkey := defaultPublicKey },
  is_next := false }

/-- A domain sync aggregate with a one-byte zero bitmap and zero signature. -/
def agg0 : SyncAggregate :=
{ sync_committee_bits := [0], sync_committee_signature := ⟨z96⟩ }

/-- A domain consensus update whose next sync committee is present with an
empty branch: a value no decode would produce, used to exercise the encode
path on an inconsistent record. -/
def Rx : ConsensusUpdateInfo :=
{ R0 with next_sync_committee := some (sc0, []) }

/-- A well-formed wire execution update. -/
def ex0 : ProtoExecutionUpdate :=
{ state_root := z32, state_root_branch := [z32], block_number := 7,
  block_number_branch := [] }

/-- A well-formed wire trusted sync committee. -/
def v0 : ProtoTrustedSyncCommittee :=
{ trusted_height := some { revision_number := 0, revision_height := 1 },
  sync_committee := some { pubkeys := [z48], aggregate_pubkey := z48 },
  is_next := true }

/-- A well-formed wire account update: the proof is the RLP list with the
single one-byte item 1, the storage root is 32 zero bytes. -/
def a0 : ProtoAccountUpdate :=
{ account_proof := [193, 1], account_storage_root := z32 }

/-- m1 with one malformed 47-byte committee key. -/
def badCommittee : ProtoSyncCommittee :=
{ pubkeys := [List.replicate 47 0], aggregate_pubkey := z48 }

def m3 : ProtoConsensusUpdate :=
{ m1 with next_sync_committee := some badCommittee }

/-- The wire message the encode of Rx produces. -/
def px : ProtoConsensusUpdate :=
{ attested_header := some ph100,
  next_sync_committee := some { pubkeys := [z48], aggregate_pubkey := z48 },
  next_sync_committee_branch := [], finalized_header := some ph99,
  finalized_header_branch := [], finalized_execution_root := z32,
  finalized_execution_branch := [], sync_aggregate := some psa0,
  signature_slot := 100 }


lemma ok_bind (a : α) (f : α → Except ε β) : (Except.ok a >>= f) = f a := rfl

lemma error_bind (e : ε) (f : α → Except ε β) : ((Except.error e : Except ε α) >>= f) = Except.error e := rfl

lemma except_bind_ok (x : Except ε α) (f : α → Except ε β) (c : β) :
    (x >>= f) = Except.ok c ↔ ∃ a, x = Except.ok a ∧ f a = Except.ok c := by
  cases x with
  | ok a => simp [ok_bind]
  | error e => simp [error_bind]

lemma liftE_ok_iff (x : Except Error α) (a : α) :
    liftE x = Except.ok a ↔ x = Except.ok a := by
  cases x <;> simp [liftE]

lemma liftE_ne_panicked (x : Except Error α) :
    liftE x ≠ Except.error Fault.panicked := by
  cases x <;> simp [liftE]

lemma from_slice_ok_iff (bz : Bytes) (h : H256) :
    H256.from_slice bz = Except.ok h ↔ bz.length = 32 ∧ h = ⟨bz⟩ := by
  unfold H256.from_slice
  by_cases hl : bz.length = 32 <;> simp [hl, eq_comm]

lemma from_slice_self (h : H256) (hl : h.data.length = 32) :
    H256.from_slice h.as_bytes = Except.ok h := by
  rw [from_slice_ok_iff]
  exact ⟨hl, rfl⟩

lemma decode_branch_ok_iff (bs : List Bytes) (hs : List H256) :
    decode_branch bs = Except.ok hs ↔
      (∀ b ∈ bs, b.length = 32) ∧ hs = bs.map (fun b => ⟨b⟩) := by
  induction bs generalizing hs with
  | nil => simp [decode_branch, mapME, eq_comm]
  | cons b bs ih =>
    simp only [decode_branch, mapME] at *
    constructor
    · intro h
      rw [except_bind_ok] at h
      obtain ⟨a, ha, h⟩ := h
      rw [except_bind_ok] at h
      obtain ⟨as, has, h⟩ := h
      rw [from_slice_ok_iff] at ha
      have h2 := (ih as).mp has
      simp only [pure, Except.pure, Except.ok.injEq] at h
      subst h
      refine ⟨?_, ?_⟩
      · intro x hx
        rcases List.mem_cons.mp hx with hx | hx
        · subst hx; exact ha.1
        · exact h2.1 x hx
      · simp [ha.2, h2.2]
    · rintro ⟨hlen, rfl⟩
      have hb : H256.from_slice b = Except.ok ⟨b⟩ := by
        rw [from_slice_ok_iff]; exact ⟨hlen b (List.mem_cons_self b bs), rfl⟩
      have hbs : mapME H256.from_slice bs = Except.ok (bs.map (fun b => ⟨b⟩)) := by
        exact (ih _).mpr ⟨fun x hx => hlen x (List.mem_cons_of_mem b hx), rfl⟩
      rw [hb, ok_bind, hbs, ok_bind]
      rfl

lemma encode_branch_map (bs : List Bytes) :
    encode_branch (bs.map (fun b => (⟨b⟩ : H256))) = bs := by
  induction bs with
  | nil => rfl
  | cons b bs ih => simp [encode_branch, H256.as_bytes] at *; exact ih

lemma decode_branch_roundtrip (bs : List Bytes) (hs : List H256)
    (h : decode_branch bs = Except.ok hs) :
    decode_branch (encode_branch hs) = Except.ok hs := by
  rw [decode_branch_ok_iff] at h
  obtain ⟨hlen, rfl⟩ := h
  rw [encode_branch_map, decode_branch_ok_iff]
  exact ⟨hlen, rfl⟩

lemma decode_branch_encode_eq (bs : List Bytes) (hs : List H256)
    (h : decode_branch bs = Except.ok hs) : encode_branch hs = bs := by
  rw [decode_branch_ok_iff] at h
  obtain ⟨_, rfl⟩ := h
  exact encode_branch_map bs

lemma decode_branch_total (bs : List Bytes) (hlen : ∀ b ∈ bs, b.length = 32) :
    decode_branch bs = Except.ok (bs.map (fun b => ⟨b⟩)) := by
  rw [decode_branch_ok_iff]; exact ⟨hlen, rfl⟩

lemma decode_branch_length (bs : List Bytes) (hs : List H256)
    (h : decode_branch bs = Except.ok hs) : hs.length = bs.length := by
  rw [decode_branch_ok_iff] at h
  obtain ⟨_, rfl⟩ := h
  simp

lemma mapM_tryFrom_ok_iff (ks : List Bytes) (pks : List PublicKey) :
    mapME PublicKey.tryFrom ks = Except.ok pks ↔
      (∀ k ∈ ks, k.length = 48) ∧ pks = ks.map (fun k => ⟨k⟩) := by
  induction ks generalizing pks with
  | nil => simp [mapME, eq_comm]
  | cons k ks ih =>
    simp only [mapME]
    constructor
    · intro h
      rw [except_bind_ok] at h
      obtain ⟨a, ha, h⟩ := h
      rw [except_bind_ok] at h
      obtain ⟨as, has, h⟩ := h
      unfold PublicKey.tryFrom at ha
      by_cases hk : k.length = 48
      · simp only [hk, if_pos, Except.ok.injEq] at ha
        have h2 := (ih as).mp has
        simp only [pure, Except.pure, Except.ok.injEq] at h
        subst h
        refine ⟨?_, ?_⟩
        · intro x hx
          rcases List.mem_cons.mp hx with hx | hx
          · subst hx; exact hk
          · exact h2.1 x hx
        · simp [← ha, h2.2]
      · simp [hk] at ha
    · rintro ⟨hlen, rfl⟩
      have hk : PublicKey.tryFrom k = Except.ok ⟨k⟩ := by
        unfold PublicKey.tryFrom
        simp [hlen k (List.mem_cons_self k ks)]
      have hks : mapME PublicKey.tryFrom ks = Except.ok (ks.map (fun k => ⟨k⟩)) := by
        exact (ih _).mpr ⟨fun x hx => hlen x (List.mem_cons_of_mem k hx), rfl⟩
      rw [hk, ok_bind, hks, ok_bind]
      rfl

lemma mapM_tryFrom_first_bad (pre : List Bytes) (bad : Bytes) (rest : List Bytes)
    (hpre : ∀ k ∈ pre, k.length = 48) (hbad : bad.length ≠ 48) :
    mapME PublicKey.tryFrom (pre ++ bad :: rest) = Except.error (Error.badPublicKey bad) := by
  induction pre with
  | nil =>
    simp only [List.nil_append, mapME]
    unfold PublicKey.tryFrom
    simp [hbad, error_bind]
  | cons k pre ih =>
    simp only [List.cons_append, mapME]
    have hk : PublicKey.tryFrom k = Except.ok ⟨k⟩ := by
      unfold PublicKey.tryFrom
      simp [hpre k (List.mem_cons_self k pre)]
    have ih2 := ih (fun x hx => hpre x (List.mem_cons_of_mem k hx))
    rw [hk, ok_bind]
    simp only [List.append_eq]
    rw [ih2]
    rfl

lemma fromIter_length (N : Nat) (d : α) (xs : List α) :
    (Vector.fromIter N d xs).length = N := by
  unfold Vector.fromIter
  by_cases h : xs.length = N <;> simp [h]

lemma fromIter_of_length (N : Nat) (d : α) (xs : List α) (h : xs.length = N) :
    Vector.fromIter N d xs = xs := by
  unfold Vector.fromIter
  simp [h]

lemma fromIter_mem (N : Nat) (d : α) (xs : List α) (P : α → Prop)
    (hxs : ∀ x ∈ xs, P x) (hd : P d) : ∀ y ∈ Vector.fromIter N d xs, P y := by
  intro y hy
  unfold Vector.fromIter at hy
  by_cases h : xs.length = N
  · rw [if_pos h] at hy
    exact hxs y hy
  · rw [if_neg h] at hy
    rw [List.eq_of_mem_replicate hy]
    exact hd

lemma tryFrom_ok_iff (bz : Bytes) (pk : PublicKey) :
    PublicKey.tryFrom bz = Except.ok pk ↔ bz.length = 48 ∧ pk = ⟨bz⟩ := by
  unfold PublicKey.tryFrom
  by_cases hl : bz.length = 48 <;> simp [hl, eq_comm]

lemma sig_tryFrom_ok_iff (bz : Bytes) (s : Signature) :
    Signature.tryFrom bz = Except.ok s ↔ bz.length = 96 ∧ s = ⟨bz⟩ := by
  unfold Signature.tryFrom
  by_cases hl : bz.length = 96 <;> simp [hl, eq_comm]

lemma deserialize_ok (N : Nat) (bz out : Bytes)
    (h : Bitvector.deserialize N bz = Except.ok out) : out = bz ∧ N ≠ 0 := by
  unfold Bitvector.deserialize at h
  split_ifs at h
  all_goals simp_all

lemma map_data_eta (pks : List PublicKey) :
    (pks.map PublicKey.data).map (fun k => (⟨k⟩ : PublicKey)) = pks := by
  induction pks with
  | nil => rfl
  | cons pk pks ih => simp at *; exact ih

lemma header_ok_iff (h : ProtoBeaconBlockHeader) (bh : BeaconBlockHeader) :
    convert_proto_to_header h = Except.ok bh ↔
      header_hashes_ok h ∧
      bh = ⟨h.slot, h.proposer_index, ⟨h.parent_root⟩, ⟨h.state_root⟩, ⟨h.body_root⟩⟩ := by
  unfold convert_proto_to_header header_hashes_ok
  constructor
  · intro hh
    rw [except_bind_ok] at hh
    obtain ⟨p, hp, hh⟩ := hh
    rw [except_bind_ok] at hh
    obtain ⟨s, hs, hh⟩ := hh
    rw [except_bind_ok] at hh
    obtain ⟨b, hb, hh⟩ := hh
    rw [from_slice_ok_iff] at hp hs hb
    simp only [Except.ok.injEq] at hh
    exact ⟨⟨hp.1, hs.1, hb.1⟩, by rw [← hh]; simp [hp.2, hs.2, hb.2]⟩
  · rintro ⟨⟨h1, h2, h3⟩, rfl⟩
    have p1 : H256.from_slice h.parent_root = Except.ok ⟨h.parent_root⟩ := by
      rw [from_slice_ok_iff]; exact ⟨h1, rfl⟩
    have p2 : H256.from_slice h.state_root = Except.ok ⟨h.state_root⟩ := by
      rw [from_slice_ok_iff]; exact ⟨h2, rfl⟩
    have p3 : H256.from_slice h.body_root = Except.ok ⟨h.body_root⟩ := by
      rw [from_slice_ok_iff]; exact ⟨h3, rfl⟩
    rw [p1, ok_bind, p2, ok_bind, p3, ok_bind]

lemma header_roundtrip (h : ProtoBeaconBlockHeader) (bh : BeaconBlockHeader)
    (hh : convert_proto_to_header h = Except.ok bh) :
    convert_proto_to_header (convert_header_to_proto bh) = Except.ok bh := by
  rw [header_ok_iff] at hh
  obtain ⟨⟨h1, h2, h3⟩, rfl⟩ := hh
  rw [header_ok_iff]
  exact ⟨⟨h1, h2, h3⟩, rfl⟩

lemma sync_agg_roundtrip (N : Nat) (sa : ProtoSyncAggregate) (agg : SyncAggregate)
    (h : convert_proto_sync_aggregate N sa = Except.ok agg) :
    N ≠ 0 ∧ agg.sync_committee_bits = sa.sync_committee_bits ∧
      convert_sync_aggregate_to_proto N agg = Except.ok sa := by
  unfold convert_proto_sync_aggregate at h
  cases hd : Bitvector.deserialize N sa.sync_committee_bits with
  | error e => rw [hd] at h; simp [error_bind] at h
  | ok bits =>
    obtain ⟨rfl, hN⟩ := deserialize_ok N sa.sync_committee_bits bits hd
    rw [hd] at h
    simp only [ok_bind] at h
    rw [except_bind_ok] at h
    obtain ⟨s, hs, h⟩ := h
    rw [sig_tryFrom_ok_iff] at hs
    simp only [Except.ok.injEq] at h
    subst h
    refine ⟨hN, rfl, ?_⟩
    unfold convert_sync_aggregate_to_proto Bitvector.serialize
    rw [if_neg hN]
    simp [hs.2]

lemma decode_nsc_ok_some_iff (N : Nat) (c : ProtoSyncCommittee) (br : List Bytes)
    (sc : SyncCommittee) (dbr : List H256) :
    decode_next_sync_committee N (some c) br = Except.ok (some (sc, dbr)) ↔
      c.pubkeys ≠ [] ∧ br ≠ [] ∧
      (∀ k ∈ c.pubkeys, k.length = 48) ∧ c.aggregate_pubkey.length = 48 ∧
      (∀ b ∈ br, b.length = 32) ∧
      sc = ⟨Vector.fromIter N defaultPublicKey (c.pubkeys.map (fun k => ⟨k⟩)),
            ⟨c.aggregate_pubkey⟩⟩ ∧
      dbr = br.map (fun b => ⟨b⟩) := by
  unfold decode_next_sync_committee
  dsimp only
  by_cases h1 : c.pubkeys.isEmpty
  · rw [if_pos h1]
    simp [List.isEmpty_iff.mp h1]
  · rw [if_neg h1]
    by_cases h2 : br.isEmpty
    · rw [if_pos h2]
      simp [List.isEmpty_iff.mp h2]
    · rw [if_neg h2]
      constructor
      · intro h
        rw [except_bind_ok] at h
        obtain ⟨keys, hkeys, h⟩ := h
        rw [liftE_ok_iff, mapM_tryFrom_ok_iff] at hkeys
        obtain ⟨hk48, rfl⟩ := hkeys
        rw [except_bind_ok] at h
        obtain ⟨agg, hagg, h⟩ := h
        rw [liftE_ok_iff, tryFrom_ok_iff] at hagg
        obtain ⟨ha48, rfl⟩ := hagg
        rw [except_bind_ok] at h
        obtain ⟨db, hdb, h⟩ := h
        obtain ⟨hb32, rfl⟩ := (decode_branch_ok_iff br db).mp hdb
        simp only [Except.ok.injEq, Option.some.injEq, Prod.mk.injEq] at h
        exact ⟨fun hc => h1 (by simp [hc]), fun hb => h2 (by simp [hb]),
               hk48, ha48, hb32, h.1.symm, h.2.symm⟩
      · rintro ⟨hc, hb, hk48, ha48, hb32, rfl, rfl⟩
        have hkeys : liftE (mapME PublicKey.tryFrom c.pubkeys) =
            Except.ok (c.pubkeys.map (fun k => (⟨k⟩ : PublicKey))) := by
          rw [liftE_ok_iff, mapM_tryFrom_ok_iff]; exact ⟨hk48, rfl⟩
        have hagg : liftE (PublicKey.tryFrom c.aggregate_pubkey) =
            Except.ok (⟨c.aggregate_pubkey⟩ : PublicKey) := by
          rw [liftE_ok_iff, tryFrom_ok_iff]; exact ⟨ha48, rfl⟩
        have hdb : decode_branch br = Except.ok (br.map (fun b => ⟨b⟩)) :=
          decode_branch_total br hb32
        rw [hkeys, ok_bind, hagg, ok_bind, hdb, ok_bind]

lemma decode_nsc_isSome (N : Nat) (co : Option ProtoSyncCommittee) (br : List Bytes)
    (nsc : Option (SyncCommittee × List H256))
    (h : decode_next_sync_committee N co br = Except.ok nsc) :
    nsc.isSome = nsc_present co br := by
  cases co with
  | none =>
    unfold decode_next_sync_committee at h
    dsimp only at h
    simp only [Except.ok.injEq] at h
    subst h
    rfl
  | some c =>
    unfold decode_next_sync_committee at h
    dsimp only at h
    by_cases h1 : c.pubkeys.isEmpty
    · rw [if_pos h1] at h
      simp only [Except.ok.injEq] at h
      subst h
      simp [nsc_present, h1]
    · rw [if_neg h1] at h
      by_cases h2 : br.isEmpty
      · rw [if_pos h2] at h
        simp only [Except.ok.injEq] at h
        subst h
        simp [nsc_present, h1, h2]
      · rw [if_neg h2] at h
        rw [except_bind_ok] at h
        obtain ⟨keys, _, h⟩ := h
        rw [except_bind_ok] at h
        obtain ⟨agg, _, h⟩ := h
        rw [except_bind_ok] at h
        obtain ⟨db, _, h⟩ := h
        simp only [Except.ok.injEq] at h
        subst h
        simp [nsc_present, h1, h2]

lemma decode_nsc_roundtrip (N : Nat) (co : Option ProtoSyncCommittee) (br : List Bytes)
    (nsc : Option (SyncCommittee × List H256)) (hN : N ≠ 0)
    (h : decode_next_sync_committee N co br = Except.ok nsc) :
    decode_next_sync_committee N (encode_nsc_committee nsc) (encode_nsc_branch nsc) =
      Except.ok nsc := by
  cases nsc with
  | none => rfl
  | some p =>
    obtain ⟨sc, dbr⟩ := p
    cases co with
    | none =>
      unfold decode_next_sync_committee at h
      dsimp only at h
      simp at h
    | some c =>
      rw [decode_nsc_ok_some_iff] at h
      obtain ⟨hc, hb, hk48, ha48, hb32, rfl, rfl⟩ := h
      dsimp only [encode_nsc_committee, encode_nsc_branch, Option.map]
      rw [decode_nsc_ok_some_iff]
      dsimp only
      have hPlen : (Vector.fromIter N defaultPublicKey
          (c.pubkeys.map (fun k => (⟨k⟩ : PublicKey)))).length = N :=
        fromIter_length N defaultPublicKey _
      have hP48 : ∀ pk ∈ Vector.fromIter N defaultPublicKey
          (c.pubkeys.map (fun k => (⟨k⟩ : PublicKey))), pk.data.length = 48 := by
        apply fromIter_mem
        · intro x hx
          obtain ⟨k, hk, rfl⟩ := List.mem_map.mp hx
          exact hk48 k hk
        · simp [defaultPublicKey]
      refine ⟨?_, ?_, ?_, ha48, ?_, ?_, ?_⟩
      · intro hnil
        have hlen0 := congrArg List.length hnil
        simp only [List.length_map, List.length_nil] at hlen0
        exact hN (by rw [← hPlen]; exact hlen0)
      · rw [encode_branch_map]
        exact hb
      · intro k hk
        obtain ⟨pk, hpk, rfl⟩ := List.mem_map.mp hk
        exact hP48 pk hpk
      · rw [encode_branch_map]
        exact hb32
      · rw [map_data_eta, fromIter_of_length N defaultPublicKey _ hPlen]
      · rw [encode_branch_map]

lemma ne_panicked_bind (x : Except Fault α) (f : α → Except Fault β)
    (hx : x ≠ Except.error Fault.panicked)
    (hf : ∀ a, f a ≠ Except.error Fault.panicked) :
    (x >>= f) ≠ Except.error Fault.panicked := by
  cases x with
  | ok a => rw [ok_bind]; exact hf a
  | error e =>
    rw [error_bind]
    intro hc
    apply hx
    rw [Except.error.injEq] at hc
    rw [hc]

lemma from_slice_ne_panicked (bz : Bytes) (h : bz.length = 32) :
    H256.from_slice bz ≠ Except.error Fault.panicked := by
  unfold H256.from_slice
  rw [if_pos h]
  simp

lemma decode_branch_ne_panicked (bs : List Bytes) (h : ∀ b ∈ bs, b.length = 32) :
    decode_branch bs ≠ Except.error Fault.panicked := by
  rw [decode_branch_total bs h]
  simp

lemma header_ne_panicked (ph : ProtoBeaconBlockHeader) (h : header_hashes_ok ph) :
    convert_proto_to_header ph ≠ Except.error Fault.panicked := by
  rw [(header_ok_iff ph _).mpr ⟨h, rfl⟩]
  simp

lemma decode_nsc_ne_panicked (N : Nat) (co : Option ProtoSyncCommittee) (br : List Bytes)
    (hbr : ∀ b ∈ br, b.length = 32) :
    decode_next_sync_committee N co br ≠ Except.error Fault.panicked := by
  unfold decode_next_sync_committee
  cases co with
  | none => simp
  | some c =>
    dsimp only
    by_cases h1 : c.pubkeys.isEmpty
    · rw [if_pos h1]; simp
    · rw [if_neg h1]
      by_cases h2 : br.isEmpty
      · rw [if_pos h2]; simp
      · rw [if_neg h2]
        apply ne_panicked_bind _ _ (liftE_ne_panicked _)
        intro keys
        apply ne_panicked_bind _ _ (liftE_ne_panicked _)
        intro agg
        apply ne_panicked_bind _ _ (decode_branch_ne_panicked br hbr)
        intro db
        simp

lemma require_header_ok (f : String) (o : Option ProtoBeaconBlockHeader)
    (bh : BeaconBlockHeader) :
    require_header f o = Except.ok bh ↔
      ∃ h, o = some h ∧ convert_proto_to_header h = Except.ok bh := by
  cases o with
  | none => simp [require_header]
  | some h => simp [require_header]

lemma require_sync_aggregate_ok (N : Nat) (o : Option ProtoSyncAggregate)
    (agg : SyncAggregate) :
    require_sync_aggregate N o = Except.ok agg ↔
      ∃ sa, o = some sa ∧ convert_proto_sync_aggregate N sa = Except.ok agg := by
  cases o with
  | none => simp [require_sync_aggregate]
  | some sa => simp [require_sync_aggregate, liftE_ok_iff]

lemma consensus_decode_ok (N : Nat) (m : ProtoConsensusUpdate) (R : ConsensusUpdateInfo)
    (h : convert_proto_to_consensus_update N m = Except.ok R) :
    ∃ ha hf sa, m.attested_header = some ha ∧ m.finalized_header = some hf ∧
      m.sync_aggregate = some sa ∧
      convert_proto_to_header ha = Except.ok R.attested_header ∧
      convert_proto_to_header hf = Except.ok R.finalized_header.1 ∧
      decode_branch m.finalized_execution_branch = Except.ok R.finalized_execution_branch ∧
      decode_next_sync_committee N m.next_sync_committee m.next_sync_committee_branch =
        Except.ok R.next_sync_committee ∧
      decode_branch m.finalized_header_branch = Except.ok R.finalized_header.2 ∧
      convert_proto_sync_aggregate N sa = Except.ok R.sync_aggregate ∧
      H256.from_slice m.finalized_execution_root = Except.ok R.finalized_execution_root ∧
      R.signature_slot = m.signature_slot := by
  unfold convert_proto_to_consensus_update at h
  rw [except_bind_ok] at h
  obtain ⟨A, hA, h⟩ := h
  rw [except_bind_ok] at h
  obtain ⟨F, hF, h⟩ := h
  rw [except_bind_ok] at h
  obtain ⟨FEB, hFEB, h⟩ := h
  rw [except_bind_ok] at h
  obtain ⟨NSC, hNSC, h⟩ := h
  rw [except_bind_ok] at h
  obtain ⟨FHB, hFHB, h⟩ := h
  rw [except_bind_ok] at h
  obtain ⟨AGG, hAGG, h⟩ := h
  rw [except_bind_ok] at h
  obtain ⟨FER, hFER, h⟩ := h
  simp only [Except.ok.injEq] at h
  subst h
  obtain ⟨ha, hma, hA⟩ := (require_header_ok _ _ _).mp hA
  obtain ⟨hf, hmf, hF⟩ := (require_header_ok _ _ _).mp hF
  obtain ⟨sa, hms, hAGG⟩ := (require_sync_aggregate_ok _ _ _).mp hAGG
  exact ⟨ha, hf, sa, hma, hmf, hms, hA, hF, hFEB, hNSC, hFHB, hAGG, hFER, rfl⟩

lemma require_header_ne_panicked (f : String) (o : Option ProtoBeaconBlockHeader)
    (h : ∀ x, o = some x → header_hashes_ok x) :
    require_header f o ≠ Except.error Fault.panicked := by
  cases o with
  | none => simp [require_header]
  | some x =>
    dsimp only [require_header]
    exact header_ne_panicked x (h x rfl)

lemma require_sync_aggregate_ne_panicked (N : Nat) (o : Option ProtoSyncAggregate) :
    require_sync_aggregate N o ≠ Except.error Fault.panicked := by
  cases o with
  | none => simp [require_sync_aggregate]
  | some sa =>
    dsimp only [require_sync_aggregate]
    exact liftE_ne_panicked _

lemma decode_nsc_ok_keys (N : Nat) (c : ProtoSyncCommittee) (br : List Bytes)
    (nsc : Option (SyncCommittee × List H256))
    (h : decode_next_sync_committee N (some c) br = Except.ok nsc)
    (hc : ¬ c.pubkeys.isEmpty) (hb : ¬ br.isEmpty) :
    ∀ k ∈ c.pubkeys, k.length = 48 := by
  unfold decode_next_sync_committee at h
  dsimp only at h
  rw [if_neg hc, if_neg hb] at h
  rw [except_bind_ok] at h
  obtain ⟨keys, hkeys, _⟩ := h
  rw [liftE_ok_iff, mapM_tryFrom_ok_iff] at hkeys
  exact hkeys.1

/-- C1: a decoded consensus update record carries a present
`next_sync_committee` exactly when the wire committee is present with a
non-empty pubkey list and a non-empty branch list; every other combination
decodes to an absent field. -/
theorem C1_next_sync_committee_presence (N : Nat) (m : ProtoConsensusUpdate)
    (R : ConsensusUpdateInfo)
    (h : convert_proto_to_consensus_update N m = Except.ok R) :
    R.next_sync_committee.isSome =
      nsc_present m.next_sync_committee m.next_sync_committee_branch := by
  obtain ⟨ha, hf, sa, hma, hmf, hms, hA, hF, hFEB, hNSC, hFHB, hAGG, hFER, hslot⟩ :=
    consensus_decode_ok N m R h
  exact decode_nsc_isSome N _ _ _ hNSC

/-- Witness for C1 at the concrete wire message m0, which decodes to R0. -/
theorem C1_witness :
    R0.next_sync_committee.isSome =
      nsc_present m0.next_sync_committee m0.next_sync_committee_branch :=
  C1_next_sync_committee_presence 1 m0 R0 (by rfl)

/-- C2: a domain record produced by a successful decode survives the
encode-then-decode round trip unchanged. -/
theorem C2_decode_encode_roundtrip (N : Nat) (m : ProtoConsensusUpdate)
    (R : ConsensusUpdateInfo)
    (h : convert_proto_to_consensus_update N m = Except.ok R) :
    (convert_consensus_update_to_proto N R >>= convert_proto_to_consensus_update N) =
      Except.ok R := by
  obtain ⟨ha, hf, sa, hma, hmf, hms, hA, hF, hFEB, hNSC, hFHB, hAGG, hFER, hslot⟩ :=
    consensus_decode_ok N m R h
  obtain ⟨hN, hbits, hENC⟩ := sync_agg_roundtrip N sa R.sync_aggregate hAGG
  have henc : convert_consensus_update_to_proto N R = Except.ok
      { attested_header := some (convert_header_to_proto R.attested_header),
        next_sync_committee := encode_nsc_committee R.next_sync_committee,
        next_sync_committee_branch := encode_nsc_branch R.next_sync_committee,
        finalized_header := some (convert_header_to_proto R.finalized_header.1),
        finalized_header_branch := encode_branch R.finalized_header.2,
        finalized_execution_root := R.finalized_execution_root.as_bytes,
        finalized_execution_branch := encode_branch R.finalized_execution_branch,
        sync_aggregate := some sa,
        signature_slot := R.signature_slot } := by
    unfold convert_consensus_update_to_proto
    rw [hENC, ok_bind]
  rw [henc, ok_bind]
  have s1 : require_header ("attested_header")
      (some (convert_header_to_proto R.attested_header)) = Except.ok R.attested_header :=
    header_roundtrip ha R.attested_header hA
  have s2 : require_header ("finalized_header")
      (some (convert_header_to_proto R.finalized_header.1)) =
      Except.ok R.finalized_header.1 :=
    header_roundtrip hf R.finalized_header.1 hF
  have s3 : mapME H256.from_slice (encode_branch R.finalized_execution_branch) =
      Except.ok R.finalized_execution_branch :=
    decode_branch_roundtrip _ _ hFEB
  have s4 : decode_next_sync_committee N (encode_nsc_committee R.next_sync_committee)
      (encode_nsc_branch R.next_sync_committee) = Except.ok R.next_sync_committee :=
    decode_nsc_roundtrip N m.next_sync_committee m.next_sync_committee_branch
      R.next_sync_committee hN hNSC
  have s5 : decode_branch (encode_branch R.finalized_header.2) =
      Except.ok R.finalized_header.2 :=
    decode_branch_roundtrip _ _ hFHB
  have s6 : require_sync_aggregate N (some sa) = Except.ok R.sync_aggregate := by
    rw [require_sync_aggregate_ok]
    exact ⟨sa, rfl, hAGG⟩
  obtain ⟨hferl, hfere⟩ := (from_slice_ok_iff _ _).mp hFER
  have s7 : H256.from_slice (R.finalized_execution_root.as_bytes) =
      Except.ok R.finalized_execution_root :=
    from_slice_self R.finalized_execution_root (by rw [hfere]; exact hferl)
  unfold convert_proto_to_consensus_update
  simp only [s1, s2, s3, s4, s5, s6, s7, ok_bind]

/-- Witness for C2 at the concrete wire message m0. -/
theorem C2_witness :
    (convert_consensus_update_to_proto 1 R0 >>= convert_proto_to_consensus_update 1) =
      Except.ok R0 :=
  C2_decode_encode_roundtrip 1 m0 R0 (by rfl)

/-- C3: each of the three mandatory wire fields, when absent (with the fields
evaluated before it decoding cleanly), makes the consensus update decode fail
with a missing-field error naming exactly that field. -/
theorem C3_missing_mandatory_fields :
    (∀ (N : Nat) (m : ProtoConsensusUpdate), m.attested_header = none →
        convert_proto_to_consensus_update N m =
          Except.error (Fault.failed (Error.proto_missing ("attested_header")))) ∧
    (∀ (N : Nat) (m : ProtoConsensusUpdate) (ha : ProtoBeaconBlockHeader)
        (A : BeaconBlockHeader), m.attested_header = some ha →
        convert_proto_to_header ha = Except.ok A →
        m.finalized_header = none →
        convert_proto_to_consensus_update N m =
          Except.error (Fault.failed (Error.proto_missing ("finalized_header")))) ∧
    (∀ (N : Nat) (m : ProtoConsensusUpdate) (A F : BeaconBlockHeader)
        (FEB : List H256) (NSC : Option (SyncCommittee × List H256)) (FHB : List H256),
        require_header ("attested_header") m.attested_header = Except.ok A →
        require_header ("finalized_header") m.finalized_header = Except.ok F →
        mapME H256.from_slice m.finalized_execution_branch = Except.ok FEB →
        decode_next_sync_committee N m.next_sync_committee m.next_sync_committee_branch =
          Except.ok NSC →
        decode_branch m.finalized_header_branch = Except.ok FHB →
        m.sync_aggregate = none →
        convert_proto_to_consensus_update N m =
          Except.error (Fault.failed (Error.proto_missing ("sync_aggregate")))) := by
  refine ⟨?_, ?_, ?_⟩
  · intro N m hm
    unfold convert_proto_to_consensus_update
    rw [hm]
    rfl
  · intro N m ha A hma hA hmf
    unfold convert_proto_to_consensus_update
    rw [hma, hmf]
    dsimp only [require_header]
    rw [hA, ok_bind]
    rfl
  · intro N m A F FEB NSC FHB h1 h2 h3 h4 h5 hms
    unfold convert_proto_to_consensus_update
    rw [h1, ok_bind, h2, ok_bind, h3, ok_bind, h4, ok_bind, h5, ok_bind, hms]
    rfl

/-- Witness for C3: the three concrete messages mA, mB, mC, each m0 with one
mandatory field removed, produce the matching missing-field errors. -/
theorem C3_witness :
    convert_proto_to_consensus_update 1 mA =
      Except.error (Fault.failed (Error.proto_missing ("attested_header"))) ∧
    convert_proto_to_consensus_update 1 mB =
      Except.error (Fault.failed (Error.proto_missing ("finalized_header"))) ∧
    convert_proto_to_consensus_update 1 mC =
      Except.error (Fault.failed (Error.proto_missing ("sync_aggregate"))) :=
  ⟨C3_missing_mandatory_fields.1 1 mA rfl,
   C3_missing_mandatory_fields.2.1 1 mB ph100 _ rfl (by rfl) rfl,
   C3_missing_mandatory_fields.2.2 1 mC _ _ _ _ _ (by rfl) (by rfl) (by rfl) (by rfl)
     (by rfl) rfl⟩

/-- C5: a wire sync aggregate whose bitmap bytes do not deserialize to a
bit-vector of exactly N bits is rejected with the typed error carrying the
expected committee size N and the rejected bytes. -/
theorem C5_bitvector_size_error (N : Nat) (pa : ProtoSyncAggregate)
    (h : Bitvector.deserialize N pa.sync_committee_bits = Except.error ()) :
    convert_proto_sync_aggregate N pa =
      Except.error (Error.deserializeSyncCommitteeBitsError N pa.sync_committee_bits) := by
  unfold convert_proto_sync_aggregate
  rw [h]
  rfl

/-- Witness for C5: empty bitmap bytes cannot encode a one-bit vector. -/
theorem C5_witness :
    convert_proto_sync_aggregate 1 psaBad =
      Except.error (Error.deserializeSyncCommitteeBitsError 1
        psaBad.sync_committee_bits) :=
  C5_bitvector_size_error 1 psaBad (by rfl)

/-- C6: validation of a trusted sync committee fails with the revision-number
error, carrying the expected tag and the actual number, for every record whose
height revision differs from the Ethereum client tag, whatever the committee
contents (the committee check is not consulted); when the revision matches,
validation returns exactly the embedded committee's own validation result. -/
theorem C6_revision_check :
    (∀ t : TrustedSyncCommittee,
        t.height.revision_number ≠ ETHEREUM_CLIENT_REVISION_NUMBER →
        t.validate = Except.error (Error.unexpectedHeightRevisionNumber
          ETHEREUM_CLIENT_REVISION_NUMBER t.height.revision_number)) ∧
    (∀ t : TrustedSyncCommittee,
        t.height.revision_number = ETHEREUM_CLIENT_REVISION_NUMBER →
        t.validate = t.sync_committee.validate) := by
  constructor
  · intro t ht
    unfold TrustedSyncCommittee.validate
    rw [if_pos ht]
  · intro t ht
    unfold TrustedSyncCommittee.validate
    rw [if_neg (by simp [ht])]
    cases hv : t.sync_committee.validate with
    | ok u =>
      cases u
      rfl
    | error e =>
      rfl

/-- Witness for C6: t1 has revision number 1 and fails with the revision
error even though its committee is well formed; t0 has the expected revision
number and an invalid committee, and validation returns the committee's own
result. -/
theorem C6_witness :
    (t1.height.revision_number ≠ ETHEREUM_CLIENT_REVISION_NUMBER ∧
      t1.validate = Except.error (Error.unexpectedHeightRevisionNumber
        ETHEREUM_CLIENT_REVISION_NUMBER t1.height.revision_number)) ∧
    (t0.height.revision_number = ETHEREUM_CLIENT_REVISION_NUMBER ∧
      t0.validate = t0.sync_committee.validate) :=
  ⟨⟨by decide, C6_revision_check.1 t1 (by decide)⟩,
   ⟨rfl, C6_revision_check.2 t0 rfl⟩⟩

/-- C7: the consensus update encode marks the wire committee present exactly
when the domain optional field is present, emitting committee and branch
verbatim without re-applying the decode-time collapsing predicate: a present
pair with an empty branch is still emitted as a present committee with an
empty branch list, and an absent pair is emitted as an absent committee with
an empty branch list. -/
theorem C7_encode_emits_verbatim (N : Nat) (R : ConsensusUpdateInfo)
    (p : ProtoConsensusUpdate)
    (h : convert_consensus_update_to_proto N R = Except.ok p) :
    p.next_sync_committee = encode_nsc_committee R.next_sync_committee ∧
    p.next_sync_committee_branch = encode_nsc_branch R.next_sync_committee ∧
    p.next_sync_committee.isSome = R.next_sync_committee.isSome ∧
    (∀ sc, R.next_sync_committee = some (sc, []) →
        p.next_sync_committee.isSome = true ∧ p.next_sync_committee_branch = []) ∧
    (R.next_sync_committee = none →
        p.next_sync_committee = none ∧ p.next_sync_committee_branch = []) := by
  unfold convert_consensus_update_to_proto at h
  cases hsa : convert_sync_aggregate_to_proto N R.sync_aggregate with
  | error e => rw [hsa] at h; simp [error_bind] at h
  | ok sa =>
    rw [hsa, ok_bind] at h
    simp only [Except.ok.injEq] at h
    subst h
    refine ⟨rfl, rfl, ?_, ?_, ?_⟩
    · cases R.next_sync_committee <;> rfl
    · intro sc hsc
      rw [hsc]
      exact ⟨rfl, rfl⟩
    · intro hn
      rw [hn]
      exact ⟨rfl, rfl⟩

/-- Witness for C7: the inconsistent record Rx carries a present committee
with an empty branch; its encoding still marks the committee present with an
empty branch list. -/
theorem C7_witness :
    px.next_sync_committee.isSome = true ∧ px.next_sync_committee_branch = [] :=
  (C7_encode_emits_verbatim 1 Rx px (by rfl)).2.2.2.1 sc0 (by rfl)

/-- C9: for every positive committee size the sync aggregate encode succeeds
on every domain value: the bit-vector serialization panic branch is
unreachable. -/
theorem C9_encode_aggregate_total (N : Nat) (hN : 0 < N) (agg : SyncAggregate) :
    convert_sync_aggregate_to_proto N agg =
      Except.ok { sync_committee_bits := agg.sync_committee_bits,
                  sync_committee_signature := agg.sync_committee_signature.data } := by
  unfold convert_sync_aggregate_to_proto Bitvector.serialize
  rw [if_neg (Nat.pos_iff_ne_zero.mp hN)]

/-- Witness for C9 at committee size 1 and the concrete aggregate agg0. -/
theorem C9_witness :
    convert_sync_aggregate_to_proto 1 agg0 =
      Except.ok { sync_committee_bits := agg0.sync_committee_bits,
                  sync_committee_signature := agg0.sync_committee_signature.data } :=
  C9_encode_aggregate_total 1 (by decide) agg0

/-- C10: a wire execution update whose state root and branch elements are all
32 bytes long always decodes (the function has no typed error path), and
encoding the result reproduces the original wire message field for field. -/
theorem C10_execution_decode_roundtrip (m : ProtoExecutionUpdate)
    (h : execution_hashes_ok m) :
    ∃ r, convert_proto_to_execution_update m = Except.ok r ∧
      convert_execution_update_to_proto r = m := by
  obtain ⟨h1, h2, h3⟩ := h
  refine ⟨{ state_root := ⟨m.state_root⟩,
            state_root_branch := m.state_root_branch.map (fun b => ⟨b⟩),
            block_number := m.block_number,
            block_number_branch := m.block_number_branch.map (fun b => ⟨b⟩) }, ?_, ?_⟩
  · have e1 : H256.from_slice m.state_root = Except.ok ⟨m.state_root⟩ :=
      (from_slice_ok_iff _ _).mpr ⟨h1, rfl⟩
    have e2 : mapME H256.from_slice m.state_root_branch =
        Except.ok (m.state_root_branch.map (fun b => ⟨b⟩)) :=
      decode_branch_total _ h2
    have e3 : mapME H256.from_slice m.block_number_branch =
        Except.ok (m.block_number_branch.map (fun b => ⟨b⟩)) :=
      decode_branch_total _ h3
    unfold convert_proto_to_execution_update
    simp only [e1, e2, e3, ok_bind]
  · obtain ⟨sr, srb, bn, bnb⟩ := m
    simp only [convert_execution_update_to_proto, H256.as_bytes]
    rw [show encode_branch (srb.map (fun b => (⟨b⟩ : H256))) = srb from encode_branch_map srb]
    rw [show encode_branch (bnb.map (fun b => (⟨b⟩ : H256))) = bnb from encode_branch_map bnb]

/-- Witness for C10 at the concrete wire execution update ex0. -/
theorem C10_witness :
    ∃ r, convert_proto_to_execution_update ex0 = Except.ok r ∧
      convert_execution_update_to_proto r = ex0 :=
  C10_execution_decode_roundtrip ex0 (by unfold execution_hashes_ok; decide)

/-- Counterexample to C4: a consensus update with every field present but a
31-byte parent root in the attested header makes the decode panic (via
`H256::from_slice`) instead of returning a typed error. -/
theorem C4_counterexample :
    convert_proto_to_consensus_update 1 m2 = Except.error Fault.panicked := by rfl

/-- C4 amended: every decode returns a fully decoded record or a typed error
for all inputs whose hash-position byte strings are exactly 32 bytes; the
trusted sync committee decode never panics at all.  (A hash byte string of any
other length panics, as the counterexample shows.) -/
theorem C4_amended_typed_errors_outside_hash_width :
    (∀ (N : Nat) (m : ProtoConsensusUpdate), consensus_hashes_ok m →
        convert_proto_to_consensus_update N m ≠ Except.error Fault.panicked) ∧
    (∀ m : ProtoExecutionUpdate, execution_hashes_ok m →
        convert_proto_to_execution_update m ≠ Except.error Fault.panicked) ∧
    (∀ (N : Nat) (v : ProtoTrustedSyncCommittee),
        TrustedSyncCommittee.try_from_f N v ≠ Except.error Fault.panicked) ∧
    (∀ a : ProtoAccountUpdate, a.account_storage_root.length = 32 →
        AccountUpdateInfo.try_from a ≠ Except.error Fault.panicked) := by
  refine ⟨?_, ?_, ?_, ?_⟩
  · intro N m hm
    obtain ⟨hma, hmf, hnscb, hfhb, hfeb, hfer⟩ := hm
    unfold convert_proto_to_consensus_update
    apply ne_panicked_bind _ _ (require_header_ne_panicked _ _ hma)
    intro A
    apply ne_panicked_bind _ _ (require_header_ne_panicked _ _ hmf)
    intro F
    apply ne_panicked_bind _ _ (decode_branch_ne_panicked _ hfeb)
    intro FEB
    apply ne_panicked_bind _ _ (decode_nsc_ne_panicked N _ _ hnscb)
    intro NSC
    apply ne_panicked_bind _ _ (decode_branch_ne_panicked _ hfhb)
    intro FHB
    apply ne_panicked_bind _ _ (require_sync_aggregate_ne_panicked N _)
    intro AGG
    apply ne_panicked_bind _ _ (from_slice_ne_panicked _ hfer)
    intro FER
    simp
  · intro m hm
    obtain ⟨h1, h2, h3⟩ := hm
    unfold convert_proto_to_execution_update
    apply ne_panicked_bind _ _ (from_slice_ne_panicked _ h1)
    intro sr
    apply ne_panicked_bind _ _ (decode_branch_ne_panicked _ h2)
    intro srb
    apply ne_panicked_bind _ _ (decode_branch_ne_panicked _ h3)
    intro bnb
    simp
  · intro N v
    exact liftE_ne_panicked _
  · intro a ha
    unfold AccountUpdateInfo.try_from
    apply ne_panicked_bind _ _ (liftE_ne_panicked _)
    intro proof
    apply ne_panicked_bind _ _ (from_slice_ne_panicked _ ha)
    intro root
    simp

/-- Witness for the amended C4 at concrete well-formed inputs of all four
wire message kinds. -/
theorem C4_amended_witness :
    convert_proto_to_consensus_update 1 m0 ≠ Except.error Fault.panicked ∧
    convert_proto_to_execution_update ex0 ≠ Except.error Fault.panicked ∧
    TrustedSyncCommittee.try_from_f 1 v0 ≠ Except.error Fault.panicked ∧
    AccountUpdateInfo.try_from a0 ≠ Except.error Fault.panicked := by
  have hcm0 : consensus_hashes_ok m0 := by
    refine ⟨?_, ?_, ?_, ?_, ?_, ?_⟩
    · intro h hh
      cases hh
      exact ⟨by decide, by decide, by decide⟩
    · intro h hh
      cases hh
      exact ⟨by decide, by decide, by decide⟩
    · intro b hb
      simp [m0] at hb
    · intro b hb
      simp [m0] at hb
    · intro b hb
      simp [m0] at hb
    · decide
  exact ⟨C4_amended_typed_errors_outside_hash_width.1 1 m0 hcm0,
         C4_amended_typed_errors_outside_hash_width.2.1 ex0
           (by unfold execution_hashes_ok; decide),
         C4_amended_typed_errors_outside_hash_width.2.2.1 1 v0,
         C4_amended_typed_errors_outside_hash_width.2.2.2 a0 (by decide)⟩

/-- Counterexample to C8: under committee size 2, the wire message m1 carries
a present committee with exactly one valid 48-byte key and a non-empty
branch; the decode succeeds instead of failing, because the fixed-size vector
constructor is infallible on a wrong-count key list. -/
theorem C8_counterexample :
    m1.next_sync_committee = some { pubkeys := [z48], aggregate_pubkey := z48 } ∧
    z48.length = 48 ∧ ([z48].length ≠ 2) ∧
    (∃ R, convert_proto_to_consensus_update 2 m1 = Except.ok R) :=
  ⟨rfl, by decide, by decide, ⟨_, by rfl⟩⟩

/-- C8 amended: a malformed key (wrong byte width) in a committee passing the
presence predicate is always rejected — the decode never returns a record —
and the error is the key-decode error of the first failing element; but a
wrong-count list of valid keys is not rejected (the infallible vector
constructor silently substitutes a default-filled committee, as the
counterexample shows). -/
theorem C8_amended_key_decode :
    (∀ (N : Nat) (m : ProtoConsensusUpdate) (c : ProtoSyncCommittee)
        (R : ConsensusUpdateInfo),
        m.next_sync_committee = some c → c.pubkeys ≠ [] →
        m.next_sync_committee_branch ≠ [] →
        (∃ k ∈ c.pubkeys, k.length ≠ 48) →
        convert_proto_to_consensus_update N m ≠ Except.ok R) ∧
    (∀ (N : Nat) (c : ProtoSyncCommittee) (branch : List Bytes)
        (pre : List Bytes) (bad : Bytes) (rest : List Bytes),
        c.pubkeys = pre ++ bad :: rest →
        (∀ k ∈ pre, k.length = 48) → bad.length ≠ 48 → branch ≠ [] →
        decode_next_sync_committee N (some c) branch =
          Except.error (Fault.failed (Error.badPublicKey bad))) := by
  constructor
  · intro N m c R hm hc hb hbad hok
    obtain ⟨k, hk, hk48⟩ := hbad
    obtain ⟨ha, hf, sa, hma, hmf, hms, hA, hF, hFEB, hNSC, hFHB, hAGG, hFER, hslot⟩ :=
      consensus_decode_ok N m R hok
    rw [hm] at hNSC
    have hall := decode_nsc_ok_keys N c m.next_sync_committee_branch
      R.next_sync_committee hNSC
      (fun hh => hc (List.isEmpty_iff.mp hh))
      (fun hh => hb (List.isEmpty_iff.mp hh))
    exact hk48 (hall k hk)
  · intro N c branch pre bad rest hceq hpre hbad hbr
    unfold decode_next_sync_committee
    dsimp only
    rw [if_neg (fun hh => by rw [hceq] at hh; simp at hh),
        if_neg (fun hh => hbr (List.isEmpty_iff.mp hh))]
    rw [hceq, mapM_tryFrom_first_bad pre bad rest hpre hbad]
    rfl

/-- Witness for the amended C8: a single 47-byte key is rejected, both
through the full decode and through the committee branch of the decode with
the first-failing-element error. -/
theorem C8_amended_witness :
    (convert_proto_to_consensus_update 2 m3 ≠ Except.ok R0) ∧
    decode_next_sync_committee 2 (some badCommittee) [z32] =
      Except.error (Fault.failed (Error.badPublicKey (List.replicate 47 0))) :=
  ⟨C8_amended_key_decode.1 2 m3 badCommittee R0 rfl (by decide) (by decide)
      ⟨List.replicate 47 0, by decide, by decide⟩,
   C8_amended_key_decode.2 2 badCommittee [z32] [] (List.replicate 47 0) [] rfl
      (by simp) (by decide) (by decide)⟩
